import Mathlib

/-!
Verification development for the Hexmon signage-screen device runtime.

The TypeScript sources are shallowly embedded: JSON-like runtime values are
modelled by `JsVal`, stateful services (cache manager, playback engine,
command processor, snapshot manager) by explicit state-passing functions,
and code that can throw by `Except`/`Option` results.  Machine numbers that
matter here (byte sizes, millisecond timestamps, day counts) are exact
integers in the source's value range, so they are modelled by `Nat`/`Int`.
-/

namespace Signage

/-! ## JavaScript value model

`JsVal` models the JSON-like values the parser and normalizers receive.
`num` carries an integer: every numeric field the embedded code inspects
(durations, sizes, timestamps) is integral in the payloads; non-integral
literals and exotic coercions (hex strings, exponent forms) are outside the
model and `jsParseNumber` conservatively maps them to NaN (`none`). -/

inductive JsVal where
  | undef
  | null
  | bool (b : Bool)
  | num (n : Int)
  | str (s : String)
  | arr (xs : List JsVal)
  | obj (fields : List (String × JsVal))
  deriving Inhabited

namespace JsVal

/-- Is the value `null` or `undefined` (the `??` test). -/
def isNullish : JsVal → Bool
  | null => true
  | undef => true
  | _ => false

/-- JS truthiness. `num` has no NaN representative; NaN only arises from
`toNumber`, which returns `none` for it. -/
def truthy : JsVal → Bool
  | undef => false
  | null => false
  | bool b => b
  | num n => n ≠ 0
  | str s => s ≠ ""
  | arr _ => true
  | obj _ => true

/-- Property read `v.k` on a value for which the source guarantees no
TypeError (either `v` is a checked object, or a primitive, on which JS
property access yields `undefined`).  Reads on `null`/`undefined` that CAN
throw in the source are modelled explicitly at their call sites. -/
def getField : JsVal → String → JsVal
  | obj fields, k => ((fields.find? (fun p => p.1 = k)).map Prod.snd).getD undef
  | _, _ => undef

/-- Optional-chaining read `v?.k`: `undefined` when `v` is nullish. -/
def getOpt (v : JsVal) (k : String) : JsVal :=
  match v with
  | null => undef
  | undef => undef
  | w => w.getField k

/-- JS `a || b`. -/
def jsOr (a b : JsVal) : JsVal := if a.truthy then a else b

/-- JS `a ?? b`. -/
def coalesce (a b : JsVal) : JsVal :=
  if a.isNullish then b else a

/-- Is `typeof v === 'object' && v` truthy: a (non-null) object or array. -/
def isObjectLike : JsVal → Bool
  | arr _ => true
  | obj _ => true
  | _ => false

def isArr : JsVal → Bool
  | arr _ => true
  | _ => false

def isStr : JsVal → Bool
  | str _ => true
  | _ => false

end JsVal

/-! Character-list string helpers.  The embedded code manipulates
JavaScript strings; these helpers model the JS operations by structural
recursion over the character list (also keeping every definition
evaluable inside the kernel). -/

def listStartsWith : List Char → List Char → Bool
  | [], _ => true
  | _ :: _, [] => false
  | p :: ps, c :: cs => p = c ∧ listStartsWith ps cs

/-- `s.startsWith pre`. -/
def strStartsWith (s pre : String) : Bool := listStartsWith pre.data s.data

/-- `s.endsWith suf`. -/
def strEndsWith (s suf : String) : Bool := listStartsWith suf.data.reverse s.data.reverse

def listContainsSub (pat : List Char) : List Char → Bool
  | [] => listStartsWith pat []
  | c :: cs => listStartsWith pat (c :: cs) ∨ listContainsSub pat cs

/-- Does `s` contain `pat` as a substring? -/
def strContainsSub (s pat : String) : Bool := listContainsSub pat.data s.data

def lowerChar (c : Char) : Char :=
  if 'A' ≤ c ∧ c ≤ 'Z' then Char.ofNat (c.toNat + 32) else c

/-- `s.toLowerCase()` for ASCII (the URL extensions matched are ASCII). -/
def strToLower (s : String) : String := ⟨s.data.map lowerChar⟩

def isWsChar (c : Char) : Bool := c = ' ' ∨ c = '\t' ∨ c = '\n' ∨ c = '\r'

def trimChars (l : List Char) : List Char :=
  ((l.dropWhile isWsChar).reverse.dropWhile isWsChar).reverse

def digitsToNat (l : List Char) : Nat :=
  l.foldl (fun acc c => acc * 10 + (c.toNat - 48)) 0

/-- JS `Number(string)` restricted to optionally-signed decimal integer
literals; whitespace-only coerces to 0, anything else to NaN (`none`). -/
def jsParseNumber (s : String) : Option Int :=
  match trimChars s.data with
  | [] => some 0
  | '-' :: ds =>
    if ds ≠ [] ∧ ds.all Char.isDigit then some (-(digitsToNat ds : Int)) else none
  | '+' :: ds =>
    if ds ≠ [] ∧ ds.all Char.isDigit then some (digitsToNat ds : Int) else none
  | ds => if ds.all Char.isDigit then some (digitsToNat ds : Int) else none

mutual

/-- String conversion used by `Array.prototype.toString` (elements joined
with a comma, nullish elements becoming the empty string). -/
def jsArrJoin : List JsVal → String
  | [] => ""
  | [x] => jsElemString x
  | x :: xs => jsElemString x ++ "," ++ jsArrJoin xs

def jsElemString : JsVal → String
  | .undef => ""
  | .null => ""
  | .bool b => if b then "true" else "false"
  | .num n => toString n
  | .str s => s
  | .arr xs => jsArrJoin xs
  | .obj _ => "[object Object]"

end

/-- JS `String(v)` as used for property keys and template interpolation. -/
def jsToStr : JsVal → String
  | .undef => "undefined"
  | .null => "null"
  | .bool b => if b then "true" else "false"
  | .num n => toString n
  | .str s => s
  | .arr xs => jsArrJoin xs
  | .obj _ => "[object Object]"

/-- JS `Number(v)`; `none` is NaN. -/
def jsToNumber : JsVal → Option Int
  | .undef => none
  | .null => some 0
  | .bool b => some (if b then 1 else 0)
  | .num n => some n
  | .str s => jsParseNumber s
  | .arr xs => jsParseNumber (jsArrJoin xs)
  | .obj _ => none

/-- `Object.entries`, as applied after the `typeof === 'object'` guard. -/
def jsEntries : JsVal → List (String × JsVal)
  | .obj fields => fields
  | .arr xs => (xs.enum).map (fun p => (toString p.1, p.2))
  | _ => []

/-! Association-list helpers modelling `Map`/plain-object stores:
`mapSet` replaces in place or appends (JS key update keeps insertion
order), `mapLookup` reads, `mapRemove` deletes. -/

def mapSet {α : Type} : List (String × α) → String → α → List (String × α)
  | [], k, v => [(k, v)]
  | (k', v') :: rest, k, v =>
    if k' = k then (k, v) :: rest else (k', v') :: mapSet rest k v

def mapLookup {α : Type} : List (String × α) → String → Option α
  | [], _ => none
  | (k', v') :: rest, k => if k' = k then some v' else mapLookup rest k

def mapRemove {α : Type} (m : List (String × α)) (k : String) : List (String × α) :=
  m.filter (fun p => p.1 ≠ k)

/-- A JS `string | null | undefined` slot: `none` models a nullish or
otherwise falsy-empty value, mirroring the `!x` guards of the source. -/
def optTruthy : Option String → Bool
  | some s => s ≠ ""
  | none => false

/-- `a || b` on optional string slots. -/
def strOr (a b : Option String) : Option String :=
  if optTruthy a then a else b

/-- `v === true` (strict equality against the boolean literal). -/
def isTrueLit : JsVal → Bool
  | .bool true => true
  | _ => false

/-- Truthy values as optional strings (string contexts downstream). -/
def toOptTruthy (v : JsVal) : Option String :=
  if v.truthy then some (jsToStr v) else none

/-- Raw field kept as an optional string; nullish becomes `none`. -/
def toOptStr (v : JsVal) : Option String :=
  if v.isNullish then none else some (jsToStr v)

def exceptOk {ε α : Type} : Except ε α → Bool
  | .ok _ => true
  | .error _ => false

/-! ## Snapshot parser (`src/main/services/snapshot-parser.ts`) -/

/-- `common/types.ts` `TimelineItem`.  Identifier/URL slots are stored as
optional strings (`none` = nullish/absent), matching how the runtime only
ever tests them for truthiness or uses them in string contexts. -/
structure TimelineItem where
  id : String
  mediaId : Option String
  type : String
  remoteUrl : Option String
  displayMs : Int
  fit : String
  muted : Bool
  sha256 : Option String
  transitionDurationMs : Int
  objectKey : Option String := none
  localPath : Option String := none
  localUrl : Option String := none
  deriving Repr, DecidableEq, Inhabited

/-- Does `lower` match `/\.(ext)(\?|#|$)/`? -/
def hasUrlExt (lower ext : String) : Bool :=
  strEndsWith lower ("." ++ ext) ∨
    strContainsSub lower ("." ++ ext ++ "?") ∨
    strContainsSub lower ("." ++ ext ++ "#")

/-- `inferTypeFromUrl` of the parser. -/
def inferTypeFromUrl (url : Option String) : String :=
  match url with
  | none => "image"
  | some u =>
    if u = "" then "image"
    else
      let lower := strToLower u
      if ["mp4", "webm", "mov", "m4v"].any (hasUrlExt lower) then "video"
      else if hasUrlExt lower "pdf" then "pdf"
      else "image"

/-- `normalizeFit` of the parser: only the three literal strings pass. -/
def normalizeFit (fit : JsVal) : String :=
  match fit with
  | .str s => if s = "cover" ∨ s = "stretch" ∨ s = "contain" then s else "contain"
  | _ => "contain"

/-- `normalizeItem` of the parser.  `fresh` stands for the
`item-${Math.random().toString(36).slice(2, 8)}` fallback identifier,
supplied deterministically by the caller (it is always a nonempty string
and nothing else about it is observed). -/
def normalizeItem (input : JsVal) (mediaUrlMap : List (String × String)) (fresh : String) :
    Option TimelineItem :=
  if ¬ (input.truthy ∧ input.isObjectLike) then none
  else
    let mediaIdV := (input.getField "media_id").jsOr ((input.getField "mediaId").jsOr (input.getField "id"))
    let mapHit : JsVal := if mediaIdV.truthy then
        match mapLookup mediaUrlMap (jsToStr mediaIdV) with
        | some u => .str u
        | none => .undef
      else .undef
    let remoteUrlV := (input.getField "media_url").jsOr ((input.getField "url").jsOr mapHit)
    let typeV := (input.getField "type").jsOr (input.getField "media_type")
    let typeStr := if typeV.truthy then jsToStr typeV
      else inferTypeFromUrl (toOptTruthy remoteUrlV)
    let durV := (input.getField "display_ms").coalesce ((input.getField "displayMs").coalesce
      ((input.getField "duration_ms").coalesce ((input.getField "durationMs").coalesce (.num 10000))))
    let displayMs : Int := match jsToNumber durV with
      | some n => if n = 0 then 10000 else n
      | none => 10000
    let fit := normalizeFit ((input.getField "fit").jsOr (input.getField "fit_mode"))
    let muted := ((input.getField "muted").coalesce (.bool false)).truthy
    let transV := (input.getField "transition_ms").coalesce
      ((input.getField "transitionDurationMs").coalesce (.num 0))
    let transitionDurationMs : Int := match jsToNumber transV with
      | some n => if n = 0 then 0 else n
      | none => 0
    let idV := (input.getField "id").jsOr (mediaIdV.jsOr (.str fresh))
    some {
      id := jsToStr idV
      mediaId := toOptTruthy (mediaIdV.jsOr idV)
      type := typeStr
      remoteUrl := toOptTruthy remoteUrlV
      displayMs := displayMs
      fit := fit
      muted := muted
      sha256 := match input.getField "sha256" with
        | .str s => some s
        | _ => none
      transitionDurationMs := transitionDurationMs }

/-- The `for (const entry of payload.media)` loop of `extractMediaUrlMap`:
a `null`/`undefined` element makes the property read throw.  The stored
`url` value is the raw one (`entry.url || entry.media_url`), which need
not be a string — `inferTypeFromUrl` can later throw on it. -/
def mediaFold : List (String × JsVal) → List JsVal → Except String (List (String × JsVal))
  | m, [] => .ok m
  | m, e :: rest =>
    if e.isNullish then .error "TypeError: Cannot read properties of null"
    else
      let mediaId := (e.getField "media_id").jsOr (e.getField "mediaId")
      let url := (e.getField "url").jsOr (e.getField "media_url")
      mediaFold (if mediaId.truthy ∧ url.truthy then mapSet m (jsToStr mediaId) url else m) rest

/-- `extractMediaUrlMap` of the parser.  The `media_urls` entries are kept
only when `typeof value === 'string'`; the `media[]` entries keep their
raw values. -/
def extractMediaUrlMap (payload : JsVal) : Except String (List (String × JsVal)) :=
  let rawMap := (payload.getField "media_urls").jsOr (payload.getField "mediaUrls")
  let base := if rawMap.truthy ∧ rawMap.isObjectLike then
      (jsEntries rawMap).foldl (fun m kv => match kv.2 with
        | .str s => mapSet m kv.1 (.str s)
        | _ => m) []
    else []
  match payload.getField "media" with
  | .arr entries => mediaFold base entries
  | _ => .ok base

/-- String-coerce the raw url map for the item-construction layer
(`normalizeItem` stores identifier/URL slots in string contexts; the
coercion is value-level only — whether the parse throws is decided
beforehand on the raw values by `normalizeItemThrows`). -/
def stringizeUrlMap (m : List (String × JsVal)) : List (String × String) :=
  m.map (fun kv => (kv.1, jsToStr kv.2))

/-- Does the source's `normalizeItem` throw a TypeError on `input`?  Its
only throw path is `const type = input.type || input.media_type ||
inferTypeFromUrl(remoteUrl)`: when both type fields are falsy,
`inferTypeFromUrl` runs `url.toLowerCase()`, which throws iff the
resolved remote URL (`input.media_url || input.url ||
mediaUrlMap[mediaId]`) is truthy but not a string.  Non-object inputs
return null before reaching that line. -/
def normalizeItemThrows (input : JsVal) (mediaUrlMap : List (String × JsVal)) : Bool :=
  if ¬ (input.truthy ∧ input.isObjectLike) then false
  else
    let mediaIdV := (input.getField "media_id").jsOr ((input.getField "mediaId").jsOr (input.getField "id"))
    let mapHit : JsVal := if mediaIdV.truthy then
        (mapLookup mediaUrlMap (jsToStr mediaIdV)).getD .undef
      else .undef
    let remoteUrlV := (input.getField "media_url").jsOr ((input.getField "url").jsOr mapHit)
    let typeV := (input.getField "type").jsOr (input.getField "media_type")
    !typeV.truthy && remoteUrlV.truthy && !remoteUrlV.isStr

/-- `snapshot-parser.ts` `NormalizedSnapshot` (the `raw` echo of the input
payload is omitted: it is only persisted back to disk verbatim). -/
structure NormalizedSnapshot where
  snapshotId : Option String := none
  scheduleId : Option String := none
  items : List TimelineItem := []
  emergencyItem : Option TimelineItem := none
  defaultItem : Option TimelineItem := none
  mediaUrlMap : List (String × String) := []
  fetchedAt : String := ""
  deriving Repr, DecidableEq, Inhabited

def freshItemId (i : Nat) : String := "item-r" ++ toString i

/-- `(itemsSource || []).map(...)`: a truthy non-array value has no `.map`
and throws; a falsy one is replaced by `[]`. -/
def itemsSourceList : JsVal → Except String (List JsVal)
  | .arr xs => .ok xs
  | v => if v.truthy then .error "TypeError: itemsSource.map is not a function" else .ok []

/-- The `(raw as any)?.snapshot || (raw as any)?.data || raw` unwrapping. -/
def unwrapPayload (raw : JsVal) : JsVal :=
  (raw.getOpt "snapshot").jsOr ((raw.getOpt "data").jsOr raw)

/-- The effective items source of the parser:
`Array.isArray(schedule?.items) ? schedule?.items : snapshot.items`. -/
def itemsSourceOf (payload : JsVal) : JsVal :=
  let scheduleItems := (payload.getField "schedule").getOpt "items"
  if scheduleItems.isArr then scheduleItems else payload.getField "items"

/-- The parser's emergency guard:
`emergencyInput && (emergencyInput.active === true ||
Boolean(emergencyInput.media_url || emergencyInput.url))`. -/
def emergencyActiveOf (payload : JsVal) : Bool :=
  let emergencyInput := payload.getField "emergency"
  emergencyInput.truthy &&
    (isTrueLit (emergencyInput.getField "active") ||
      ((emergencyInput.getField "media_url").jsOr (emergencyInput.getField "url")).truthy)

/-- The throw-free tail of `parseSnapshotResponse`, applied once the url
map extraction and the items source have been obtained and no processed
item throws. -/
def parseSnapshotBody (payload : JsVal) (mediaUrlMap : List (String × String))
    (xs : List JsVal) (nowIso : String) : NormalizedSnapshot :=
  let items := (xs.enum).filterMap (fun p => normalizeItem p.2 mediaUrlMap (freshItemId p.1))
  let emergencyItem := if emergencyActiveOf payload then
      normalizeItem (payload.getField "emergency") mediaUrlMap "item-remerg"
    else none
  let defaultInput := payload.getField "default_media"
  let defaultItem := if defaultInput.truthy then
      normalizeItem defaultInput mediaUrlMap "item-rdefault"
    else none
  { snapshotId := toOptTruthy ((payload.getField "id").jsOr (payload.getField "snapshot_id"))
    scheduleId := toOptStr ((payload.getField "schedule").getOpt "id")
    items := items
    emergencyItem := emergencyItem
    defaultItem := defaultItem
    mediaUrlMap := mediaUrlMap
    fetchedAt := jsToStr ((payload.getField "fetched_at").jsOr
      ((payload.getField "generated_at").jsOr (.str nowIso))) }

/-- `parseSnapshotResponse` of the parser.  `nowIso` stands for
`new Date().toISOString()`.  Besides the non-object `ParseError`, a
nullish `media[]` element, and the missing-`.map` TypeError on a truthy
non-array items source, the parse also throws when any processed item
(an items-source element, an active emergency input, or a truthy
`default_media` input) reaches `inferTypeFromUrl` with a truthy
non-string URL — `normalizeItemThrows` — in the source's evaluation
order: the items `.map` loop first, then the emergency item, then the
default item. -/
def parseSnapshotResponse (raw : JsVal) (nowIso : String) : Except String NormalizedSnapshot :=
  let payload := unwrapPayload raw
  if ¬ (payload.truthy ∧ payload.isObjectLike) then .error "Snapshot payload is not an object"
  else match extractMediaUrlMap payload with
  | .error e => .error e
  | .ok rawMap =>
    match itemsSourceList (itemsSourceOf payload) with
    | .error e => .error e
    | .ok xs =>
      if xs.any (fun x => normalizeItemThrows x rawMap) then
        .error "TypeError: url.toLowerCase is not a function"
      else if emergencyActiveOf payload &&
          normalizeItemThrows (payload.getField "emergency") rawMap then
        .error "TypeError: url.toLowerCase is not a function"
      else if (payload.getField "default_media").truthy &&
          normalizeItemThrows (payload.getField "default_media") rawMap then
        .error "TypeError: url.toLowerCase is not a function"
      else .ok (parseSnapshotBody payload (stringizeUrlMap rawMap) xs nowIso)

/-! ## Snapshot manager (`src/main/services/snapshot-manager.ts`) -/

inductive PlaybackMode where
  | normal
  | emergency
  | default
  | offline
  | empty
  deriving Repr, DecidableEq, Inhabited

structure PlaybackPlaylist where
  mode : PlaybackMode
  items : List TimelineItem
  scheduleId : Option String := none
  snapshotId : Option String := none
  lastSnapshotAt : Option String := none
  deriving Repr, DecidableEq, Inhabited

/-- `url.pathToFileURL(p).toString()`; percent-encoding of special
characters is not modelled (no claim observes the URL text). -/
def pathToFileURL (p : String) : String := "file://" ++ p

/-- A read-only view of `cacheManager.get`: media id to local path.  (The
`lastUsedAt` touching done by the real `get` is invisible to playlist
construction and is modelled separately with the cache manager itself.) -/
def CacheView : Type := List (String × String)

/-- `attachLocalMedia` of the snapshot manager: keep only items whose media
resolves to a truthy local path, attaching `localPath`/`localUrl`. -/
def attachLocalMedia (cache : CacheView) (items : List TimelineItem) : List TimelineItem :=
  items.filterMap fun item =>
    let mediaId := strOr item.mediaId item.objectKey
    let localPath := match mediaId with
      | some m => mapLookup cache m
      | none => none
    match localPath with
    | some p => if p = "" then none
        else some { item with localPath := some p, localUrl := some (pathToFileURL p) }
    | none => none

/-- `buildPlaylist` of the snapshot manager (lines 181-208). -/
def buildPlaylist (cache : CacheView) (snapshot : NormalizedSnapshot)
    (fallbackMode : PlaybackMode) : PlaybackPlaylist :=
  let selected : PlaybackMode × List TimelineItem :=
    match snapshot.emergencyItem with
    | some e => (.emergency, [e])
    | none =>
      if snapshot.items.length > 0 then (.normal, snapshot.items)
      else match snapshot.defaultItem with
        | some d => (.default, [d])
        | none => (fallbackMode, [])
  { mode := selected.1
    items := attachLocalMedia cache selected.2
    scheduleId := snapshot.scheduleId
    snapshotId := snapshot.snapshotId
    lastSnapshotAt := some snapshot.fetchedAt }

/-- The item selection exactly as the claim words it: the single emergency
item, else the snapshot's items, else the single default item, else none.
Stated from the specification for comparison against `buildPlaylist`. -/
def claimSelectedItems (snapshot : NormalizedSnapshot) : List TimelineItem :=
  match snapshot.emergencyItem with
  | some e => [e]
  | none =>
    if snapshot.items ≠ [] then snapshot.items
    else match snapshot.defaultItem with
      | some d => [d]
      | none => []

/-- The mode exactly as the claim words the strict precedence. -/
def claimMode (snapshot : NormalizedSnapshot) (fallbackMode : PlaybackMode) : PlaybackMode :=
  if snapshot.emergencyItem.isSome then .emergency
  else if snapshot.items ≠ [] then .normal
  else if snapshot.defaultItem.isSome then .default
  else fallbackMode

/-- Outcome of one snapshot-refresh attempt (one `try` body of
`refreshSnapshot`): either a parsed snapshot whose media all cached fine,
or the exception escaping the `try`.  `urlExpired` is the
`CacheError` with `details.reason === 'URL_EXPIRED'` rethrown by
`cacheSnapshotMedia`; `notFound` is an HTTP 404; `failure` any other
error. -/
inductive AttemptOutcome where
  | success (snapshot : NormalizedSnapshot)
  | notFound
  | urlExpired
  | failure (msg : String)
  deriving Repr, DecidableEq, Inhabited

/-- Deterministic environment for a refresh cycle: what each successive
fetch attempt produces, the last good snapshot held in memory, and the
cache contents used to hydrate playlists. -/
structure RefreshEnv where
  outcome : Nat → AttemptOutcome
  currentSnapshot : Option NormalizedSnapshot
  cache : CacheView

/-- `applyOfflineFallback`: rebuild from the cached snapshot in `offline`
mode, else an `empty` playlist. -/
def applyOfflineFallback (env : RefreshEnv) : PlaybackPlaylist :=
  match env.currentSnapshot with
  | some s => buildPlaylist env.cache s .offline
  | none => { mode := .empty, items := [] }

/-- `refreshSnapshot`, with the boolean `retryOnExpired` flag represented
as retry fuel (`true` = 1, `false` = 0): attempt `i` runs, and on
`URL_EXPIRED` with fuel left the method recurses once with the flag
cleared.  Returns the resulting playlist together with the number of
snapshot fetches performed. -/
def refreshAux (env : RefreshEnv) (i : Nat) (fuel : Nat) : PlaybackPlaylist × Nat :=
  match env.outcome i with
  | .success snap => (buildPlaylist env.cache snap .normal, i + 1)
  | .notFound => (applyOfflineFallback env, i + 1)
  | .urlExpired =>
    match fuel with
    | f + 1 => refreshAux env (i + 1) f
    | 0 => (applyOfflineFallback env, i + 1)
  | .failure _ => (applyOfflineFallback env, i + 1)
termination_by fuel

/-- `refreshSnapshot(retryOnExpired)` for a paired device. -/
def refreshSnapshotOp (env : RefreshEnv) (retryOnExpired : Bool) : PlaybackPlaylist × Nat :=
  refreshAux env 0 (if retryOnExpired then 1 else 0)

/-! ## Cache manager (`src/main/services/cache/cache-manager.ts`)

State passing makes the `entries` map, the on-disk cache directory
(`files`: file name within the directory, mapped to its byte size), the
`nowPlaying` set and the emitted warnings explicit.  Network downloads are
an input (`DownloadResult`), carrying the byte count and content hash the
real `download`/`calculateBufferHash` pair would produce. -/

structure CacheEntry where
  mediaId : String
  sha256 : String
  size : Nat
  lastUsedAt : Nat
  localPath : String
  status : String := "ready"
  deriving Repr, DecidableEq, Inhabited

structure CacheState where
  entries : List (String × CacheEntry) := []
  files : List (String × Nat) := []
  nowPlaying : List String := []
  warnings : List String := []
  deriving Repr, DecidableEq, Inhabited

def cacheDir : String := "media"

def cachePathOf (name : String) : String := cacheDir ++ "/" ++ name

/-- Modelled from the spec: `sanitizeFilename` of `common/utils.ts` is not
among the provided sources; the spec requires mediaId to be sanitized "to
safe path characters", so unsafe characters are replaced. -/
def sanitizeFilename (s : String) : String :=
  ⟨s.data.map (fun c => if c.isAlphanum ∨ c = '-' ∨ c = '_' ∨ c = '.' then c else '_')⟩

/-- The extension of a path segment, as `path.extname` reports it: from
the last dot on, `""` when there is no dot or the only dot leads. -/
def extOfSegment (seg : List Char) : List Char :=
  let rev := seg.reverse
  let afterDot := rev.takeWhile (fun c => c ≠ '.')
  if afterDot.length = rev.length then []
  else if afterDot.length + 1 = rev.length then []
  else '.' :: afterDot.reverse

/-- `getFileExtension`: the extension of the URL's path component
(query/fragment stripped), as `path.extname` would report for ordinary
file names. -/
def getFileExtension (url : Option String) : String :=
  match url with
  | none => ""
  | some u =>
    if u = "" then ""
    else
      let pathPart := (u.data.takeWhile (fun c => c ≠ '?')).takeWhile (fun c => c ≠ '#')
      let seg := (pathPart.reverse.takeWhile (fun c => c ≠ '/')).reverse
      ⟨extOfSegment seg⟩

def cacheFileName (mediaId : String) (url : Option String) : String :=
  sanitizeFilename mediaId ++ getFileExtension url

def getUsedBytes (st : CacheState) : Nat :=
  (st.entries.map (fun p => p.2.size)).sum

def fileExists (st : CacheState) (p : String) : Bool :=
  st.files.any (fun f => cachePathOf f.1 = p)

/-- `removeEntry`: unlink the file and drop the index entry. -/
def removeEntry (st : CacheState) (e : CacheEntry) : CacheState :=
  { st with
    files := st.files.filter (fun f => cachePathOf f.1 ≠ e.localPath)
    entries := mapRemove st.entries e.mediaId }

def insertByLastUsed (e : CacheEntry) : List CacheEntry → List CacheEntry
  | [] => [e]
  | x :: xs => if e.lastUsedAt < x.lastUsedAt then e :: x :: xs else x :: insertByLastUsed e xs

/-- The `sort((a, b) => a.lastUsedAt - b.lastUsedAt)` over candidates. -/
def sortByLastUsed : List CacheEntry → List CacheEntry
  | [] => []
  | x :: xs => insertByLastUsed x (sortByLastUsed xs)

/-- The eviction `for` loop: before each candidate, stop once
`available >= sizeNeeded`, recomputing `available` after every removal. -/
def evictLoop (maxBytes : Nat) (sizeNeeded : Nat) : CacheState → List CacheEntry → CacheState
  | st, [] => st
  | st, e :: rest =>
    if (sizeNeeded : Int) ≤ (maxBytes : Int) - (getUsedBytes st : Int) then st
    else evictLoop maxBytes sizeNeeded (removeEntry st e) rest

/-- `evictIfNeeded` (lines 95-124): an item larger than the whole cache
skips eviction entirely, with a warning. -/
def evictIfNeeded (maxBytes : Nat) (st : CacheState) (sizeNeeded : Nat) : CacheState :=
  if sizeNeeded > maxBytes ∧ maxBytes > 0 then
    { st with warnings := st.warnings ++ ["Item exceeds cache capacity, skipping eviction"] }
  else if (sizeNeeded : Int) ≤ (maxBytes : Int) - (getUsedBytes st : Int) then st
  else
    let candidates := sortByLastUsed
      ((st.entries.map Prod.snd).filter (fun e => !(st.nowPlaying.contains e.mediaId)))
    let st1 := evictLoop maxBytes sizeNeeded st candidates
    if (maxBytes : Int) - (getUsedBytes st1 : Int) < (sizeNeeded : Int) then
      { st1 with warnings := st1.warnings ++
        ["Not enough space to evict without touching now-playing items"] }
    else st1

inductive DownloadResult where
  | success (size : Nat) (hash : String)
  | httpError (status : Nat)
  deriving Repr, DecidableEq, Inhabited

inductive CacheErr where
  | urlExpired
  | downloadFailed
  | integrityMismatch
  deriving Repr, DecidableEq, Inhabited

/-- `download`: 401/403 become the `URL_EXPIRED` cache error. -/
def downloadOp : DownloadResult → Except CacheErr (Nat × String)
  | .success size hash => .ok (size, hash)
  | .httpError status =>
    .error (if status = 401 ∨ status = 403 then .urlExpired else .downloadFailed)

/-- `addInternal` (lines 173-197). -/
def addInternal (maxBytes : Nat) (st : CacheState) (mediaId : String) (url : Option String)
    (sha256 : Option String) (dl : DownloadResult) (now : Nat) : Except CacheErr CacheState :=
  match downloadOp dl with
  | .error e => .error e
  | .ok (size, hash) =>
    if optTruthy sha256 ∧ sha256 ≠ some hash then .error .integrityMismatch
    else
      let st1 := evictIfNeeded maxBytes st size
      let name := cacheFileName mediaId url
      let st2 := { st1 with files := mapSet st1.files name size }
      let entry : CacheEntry := {
        mediaId := mediaId
        sha256 := if optTruthy sha256 then sha256.getD hash else hash
        size := size
        lastUsedAt := now
        localPath := cachePathOf name }
      .ok { st2 with entries := mapSet st2.entries mediaId entry }

/-- The directory-scan half of `has`: recover an index entry from a file
named `safeId` or `safeId.*`, else drop any stale index entry. -/
def scanEntryFor (st : CacheState) (mediaId : String) (now : Nat) : Bool × CacheState :=
  let safeId := sanitizeFilename mediaId
  match st.files.find? (fun f => f.1 = safeId ∨ strStartsWith f.1 (safeId ++ ".")) with
  | some f =>
    let e : CacheEntry := { mediaId := mediaId, sha256 := "", size := f.2, lastUsedAt := now,
                            localPath := cachePathOf f.1 }
    (true, { st with entries := mapSet st.entries mediaId e })
  | none => (false, { st with entries := mapRemove st.entries mediaId })

/-- `has` (lines 199-225): an index hit with the file present touches
`lastUsedAt`; otherwise the cache directory is scanned. -/
def hasOp (st : CacheState) (mediaId : String) (now : Nat) : Bool × CacheState :=
  match mapLookup st.entries mediaId with
  | some e =>
    if fileExists st e.localPath then
      (true, { st with entries := mapSet st.entries mediaId { e with lastUsedAt := now } })
    else scanEntryFor st mediaId now
  | none => scanEntryFor st mediaId now

/-- `add` (lines 152-171) in the sequential model (no concurrent callers,
so the `inFlight` single-flight map is empty).  The boolean reports
whether a download was performed. -/
def addOp (maxBytes : Nat) (st : CacheState) (mediaId : String) (url : Option String)
    (sha256 : Option String) (dl : DownloadResult) (now : Nat) :
    Except CacheErr (CacheState × Bool) :=
  match hasOp st mediaId now with
  | (true, st1) => .ok (st1, false)
  | (false, st1) =>
    match addInternal maxBytes st1 mediaId url sha256 dl now with
    | .ok st2 => .ok (st2, true)
    | .error e => .error e

/-! ## Playback engine (`src/main/index.ts`, PlaybackEngine) -/

inductive PState where
  | stopped
  | playing
  | paused
  | error
  | emergency
  deriving Repr, DecidableEq, Inhabited

structure EngineState where
  errorCount : Nat := 0
  state : PState := .playing
  deriving Repr, DecidableEq, Inhabited

/-- The engine events the error budget reacts to: a playback error
(`handleError`) and a successful `play-item` (`handlePlayItem` returning
without throwing). -/
inductive EngineEvent where
  | errEvent (msg : String)
  | playOk
  deriving Repr, DecidableEq, Inhabited

inductive EngineMsg where
  | showFallback (msg : String)
  | playbackStopped
  | playbackError (msg : String)
  | mediaChange
  deriving Repr, DecidableEq, Inhabited

def maxErrors : Nat := 5

/-- `handleError` (lines 1504-1526): increment, then either stop with
`PlaybackError("Max errors reached")` or send a `show-fallback`. -/
def handleError (s : EngineState) (msg : String) : EngineState × List EngineMsg :=
  let ec := s.errorCount + 1
  if ec ≥ maxErrors then
    ({ errorCount := ec, state := .error }, [.playbackStopped, .playbackError "Max errors reached"])
  else
    ({ s with errorCount := ec }, [.showFallback msg])

def engineStep (s : EngineState) : EngineEvent → EngineState × List EngineMsg
  | .errEvent m => handleError s m
  | .playOk => (s, [.mediaChange])

def engineRun : EngineState → List EngineEvent → EngineState × List EngineMsg
  | s, [] => (s, [])
  | s, e :: rest =>
    let step := engineStep s e
    let next := engineRun step.1 rest
    (next.1, step.2 ++ next.2)

def engineInit : EngineState := {}

def isErrEvent : EngineEvent → Bool
  | .errEvent _ => true
  | .playOk => false

def countErrEvents (es : List EngineEvent) : Nat := (es.filter isErrEvent).length

def isFallbackMsg : EngineMsg → Bool
  | .showFallback _ => true
  | _ => false

def isPlaybackErrorMsg : EngineMsg → Bool
  | .playbackError _ => true
  | _ => false

/-- The error counter exactly as the claim words it: incremented on each
error and reset to zero by any successful play-item.  Stated from the
specification for comparison against `engineRun`. -/
def claimResetCounter : Nat → List EngineEvent → Nat
  | c, [] => c
  | c, .errEvent _ :: rest => claimResetCounter (c + 1) rest
  | _, .playOk :: rest => claimResetCounter 0 rest

/-! ## Command processor (`src/main/index.ts`, CommandProcessor)

Command types are the literal strings of the TS union.  Each command in a
trace carries the clock readings the code would observe: `arrive` is
`Date.now()` at the rate-limit check and `complete` is `Date.now()` at
`updateRateLimit` after the handler and the ack; `execAck` is the
`CommandResult` its handler produced. -/

structure AckMsg where
  success : Bool
  error : Option String := none
  deriving Repr, DecidableEq, Inhabited

structure Command where
  id : String
  ctype : String
  arrive : Nat
  complete : Nat
  execAck : AckMsg
  deriving Repr, DecidableEq, Inhabited

structure ProcOutcome where
  ctype : String
  arrive : Nat
  dispatched : Bool
  ack : AckMsg
  deriving Repr, DecidableEq, Inhabited

def rateLimitWindowMs : Nat := 60000

/-- `isRateLimited` (lines 1190-1198). -/
def isRateLimited (m : List (String × Nat)) (ctype : String) (now : Nat) : Bool :=
  match mapLookup m ctype with
  | none => false
  | some last => now - last < rateLimitWindowMs

/-- `processCommand` (lines 920-1006), restricted to the rate-limit and
dispatch bookkeeping: a rate-limited command is acked
`{success: false, error: "Rate limited"}` without dispatch or map update; a
dispatched one acks its handler's result and then records its completion
time for its type. -/
def processCommand (m : List (String × Nat)) (c : Command) :
    List (String × Nat) × ProcOutcome :=
  if isRateLimited m c.ctype c.arrive then
    (m, { ctype := c.ctype, arrive := c.arrive, dispatched := false,
          ack := { success := false, error := some "Rate limited" } })
  else
    (mapSet m c.ctype c.complete,
     { ctype := c.ctype, arrive := c.arrive, dispatched := true, ack := c.execAck })

def runCommands : List (String × Nat) → List Command → List (String × Nat) × List ProcOutcome
  | m, [] => (m, [])
  | m, c :: rest =>
    let step := processCommand m c
    let next := runCommands step.1 rest
    (next.1, step.2 :: next.2)

/-! ## Certificate manager (`src/main/services/snapshot-manager.ts`,
CertificateManager) -/

/-- The certificate information `needsRenewal` consults; `none` models both
a missing certificate file and an unparseable one (`getCertificateInfo`
returns null for both). -/
structure CertInfoM where
  validToMs : Int
  deriving Repr, DecidableEq, Inhabited

def dayMs : Int := 86400000

/-- `needsRenewal` (lines 579-599): `Math.floor` of the remaining validity
in days, compared with `<=` against `renewBeforeDays`. -/
def needsRenewal (certInfo : Option CertInfoM) (nowMs : Int) (renewBeforeDays : Int) : Bool :=
  match certInfo with
  | none => true
  | some info => decide (Int.fdiv (info.validToMs - nowMs) dayMs ≤ renewBeforeDays)

/-! ## Default-media service
(`src/main/services/settings/default-media-service.ts`, settings client) -/

def VALID_MEDIA_TYPES : List String := ["IMAGE", "VIDEO", "DOCUMENT"]

structure DefaultMediaItem where
  id : String
  name : String
  type : String
  media_url : String
  source_content_type : Option String := none
  deriving Repr, DecidableEq, Inhabited

structure DefaultMediaResponse where
  media_id : Option String := none
  media : Option DefaultMediaItem := none
  deriving Repr, DecidableEq, Inhabited

/-- `typeof v === 'string' ? v : undefined`. -/
def strField (v : JsVal) : Option String :=
  match v with
  | .str s => some s
  | _ => none

/-- `normalizeMediaItem` (lines 183-207). -/
def normalizeMediaItem (input : JsVal) : Option DefaultMediaItem :=
  if ¬ (input.truthy ∧ input.isObjectLike) then none
  else
    let id := strField (input.getField "id")
    let name := (strField (input.getField "name")).getD "Untitled media"
    let type : Option String := match strField (input.getField "type") with
      | some s => if VALID_MEDIA_TYPES.contains s then some s else none
      | none => none
    let mediaUrl := strField (input.getField "media_url")
    let sourceContentType := strField (input.getField "source_content_type")
    if ¬ (optTruthy id ∧ type.isSome ∧ optTruthy mediaUrl) then none
    else some {
      id := id.getD ""
      name := name
      type := type.getD ""
      media_url := mediaUrl.getD ""
      source_content_type := sourceContentType }

/-- `normalizeDefaultMediaResponse` (lines 209-223). -/
def normalizeDefaultMediaResponse (raw : JsVal) : DefaultMediaResponse :=
  if ¬ (raw.truthy ∧ raw.isObjectLike) then {}
  else
    let mediaId := strField (raw.getField "media_id")
    let media := normalizeMediaItem (raw.getField "media")
    if ¬ (optTruthy mediaId ∧ media.isSome) then {}
    else { media_id := mediaId, media := media }

/-! ## Shared helper lemmas -/

theorem mapLookup_mapSet {α : Type} (m : List (String × α)) (k : String) (v : α) (k' : String) :
    mapLookup (mapSet m k v) k' = if k' = k then some v else mapLookup m k' := by
  induction m with
  | nil =>
    simp only [mapSet, mapLookup]
    by_cases h : k' = k
    · rw [if_pos h.symm, if_pos h]
    · rw [if_neg (fun hh => h hh.symm), if_neg h]
  | cons p rest ih =>
    obtain ⟨pk, pv⟩ := p
    by_cases hpk : pk = k
    · subst hpk
      simp only [mapSet, if_pos rfl, mapLookup]
      by_cases h : k' = pk
      · rw [if_pos h.symm, if_pos h]
      · rw [if_neg (fun hh => h hh.symm), if_neg h, if_neg (fun hh => h hh.symm)]
    · simp only [mapSet, if_neg hpk, mapLookup]
      by_cases h : pk = k'
      · rw [if_pos h, if_neg (fun hh => hpk (h.trans hh)), if_pos h]
      · rw [if_neg h, ih]
        by_cases hk : k' = k
        · rw [if_pos hk, if_pos hk]
        · rw [if_neg hk, if_neg hk, if_neg h]

/-! ## Claim C6 — certificate renewal boundary -/

/-- **C6, counterexample.**  The claim states that with exactly
`renewBeforeDays` (30) whole days of validity remaining, `needsRenewal`
returns `false`; on the code it returns `true` (floored day count compared
with `<=`): certificate valid until t = 2592000000 ms (exactly 30 days),
now = 0, `renewBeforeDays` = 30. -/
theorem c6_needsRenewal_counterexample :
    needsRenewal (some { validToMs := 2592000000 }) 0 30 = true ∧
    ¬ ((2592000000 : Int) - 0 < 30 * dayMs) := by
  constructor
  · decide
  · decide

/-- **C6, amended.**  `needsRenewal` returns `true` iff no certificate
info is available (missing or unparseable certificate) or the remaining
validity is *strictly below `renewBeforeDays + 1` days*, i.e.
`floor((validTo - now) / day) <= renewBeforeDays`; at exactly
`renewBeforeDays` whole days remaining it returns `true`, not `false`. -/
theorem c6_needsRenewal_amended (certInfo : Option CertInfoM) (nowMs renewBeforeDays : Int) :
    needsRenewal certInfo nowMs renewBeforeDays = true ↔
      (certInfo = none ∨
        ∃ info, certInfo = some info ∧
          info.validToMs - nowMs < (renewBeforeDays + 1) * dayMs) := by
  cases certInfo with
  | none => simp [needsRenewal]
  | some info =>
    simp only [needsRenewal, decide_eq_true_eq, Option.some.injEq, reduceCtorEq, false_or]
    have hd : (0 : Int) < dayMs := by decide
    rw [Int.fdiv_eq_ediv _ (Int.le_of_lt hd)]
    constructor
    · intro h
      refine ⟨info, rfl, ?_⟩
      have h2 : ¬ (renewBeforeDays + 1 ≤ (info.validToMs - nowMs) / dayMs) := by omega
      rw [Int.le_ediv_iff_mul_le hd] at h2
      omega
    · rintro ⟨info', hinfo, hlt⟩
      cases hinfo
      by_contra h
      have h2 : renewBeforeDays + 1 ≤ (info.validToMs - nowMs) / dayMs := by omega
      rw [Int.le_ediv_iff_mul_le hd] at h2
      omega

/-! ## Claim C10 — default media normalization is all-or-nothing -/

theorem normalizeMediaItem_valid (input : JsVal) (m : DefaultMediaItem)
    (h : normalizeMediaItem input = some m) :
    m.id ≠ "" ∧ m.type ∈ VALID_MEDIA_TYPES ∧ m.media_url ≠ "" := by
  unfold normalizeMediaItem at h
  split at h
  · exact absurd h (by simp)
  · rcases hi : strField (input.getField "id") with _ | sid
    · simp [hi, optTruthy] at h
    · rcases ht : strField (input.getField "type") with _ | sty
      · simp [hi, ht, optTruthy] at h
      · rcases hu : strField (input.getField "media_url") with _ | su
        · simp [hi, ht, hu, optTruthy] at h
        · simp [hi, ht, hu, optTruthy] at h
          obtain ⟨⟨h1, h2, h3⟩, hrec⟩ := h
          subst hrec
          refine ⟨h1, ?_, h3⟩
          simpa [if_pos h2] using h2

/-- **C10, confirmed.**  `normalizeDefaultMediaResponse` is all-or-nothing:
either both `media_id` and `media` are null, or `media_id` is a nonempty
string and `media` is a fully valid item (nonempty string id, type among
IMAGE/VIDEO/DOCUMENT, nonempty string media_url).  A `media_id` is never
returned without a valid `media` object, nor vice versa. -/
theorem c10_defaultMedia_all_or_nothing (raw : JsVal) :
    normalizeDefaultMediaResponse raw = { media_id := none, media := none } ∨
    (∃ s m, normalizeDefaultMediaResponse raw = { media_id := some s, media := some m } ∧
      s ≠ "" ∧ m.id ≠ "" ∧ m.type ∈ VALID_MEDIA_TYPES ∧ m.media_url ≠ "") := by
  unfold normalizeDefaultMediaResponse
  split
  · left; rfl
  · rcases hi : strField (raw.getField "media_id") with _ | s
    · left; simp [hi, optTruthy]
    · rcases hm : normalizeMediaItem (raw.getField "media") with _ | m
      · left; simp [hi, hm, optTruthy]
      · by_cases hs : s = ""
        · left; simp [hi, hm, hs, optTruthy]
        · obtain ⟨h1, h2, h3⟩ := normalizeMediaItem_valid _ _ hm
          right
          exact ⟨s, m, by simp [hi, hm, hs, optTruthy], hs, h1, h2, h3⟩

/-! ## Claim C7 — displayMs normalization -/

/-- The display-duration field exactly as the claim reads it: the first
non-nullish value among `display_ms`, `displayMs`, `duration_ms`,
`durationMs` (`none` = absent). -/
def displayField (input : JsVal) : Option JsVal :=
  [input.getField "display_ms", input.getField "displayMs",
   input.getField "duration_ms", input.getField "durationMs"].find? (fun v => !v.isNullish)

/-- The claim's reading of the clamp: absent, NaN (non-numeric) or zero
becomes 10000, any other numeric value is kept. -/
def claimDisplayMs (input : JsVal) : Int :=
  match displayField input with
  | none => 10000
  | some v =>
    match jsToNumber v with
    | none => 10000
    | some n => if n = 0 then 10000 else n

theorem coalesce_chain_eq_find (a b c d e : JsVal) :
    a.coalesce (b.coalesce (c.coalesce (d.coalesce e))) =
      (([a, b, c, d].find? (fun v => !v.isNullish)).getD e) := by
  by_cases ha : a.isNullish
  · by_cases hb : b.isNullish
    · by_cases hc : c.isNullish
      · by_cases hd : d.isNullish
        · simp [JsVal.coalesce, ha, hb, hc, hd, List.find?]
        · simp [JsVal.coalesce, ha, hb, hc, hd, List.find?]
      · simp [JsVal.coalesce, ha, hb, hc, List.find?]
    · simp [JsVal.coalesce, ha, hb, List.find?]
  · simp [JsVal.coalesce, ha, List.find?]

/-- **C7, confirmed.**  For every raw snapshot item accepted by
`normalizeItem`, the parsed `displayMs` is 10000 whenever the display
duration field is absent, zero, or non-numeric (coerces to NaN), and is
the given numeric value otherwise. -/
theorem c7_displayMs_clamp (input : JsVal) (mediaUrlMap : List (String × String))
    (fresh : String) (it : TimelineItem)
    (h : normalizeItem input mediaUrlMap fresh = some it) :
    it.displayMs = claimDisplayMs input := by
  unfold normalizeItem at h
  split at h
  · exact absurd h (by simp)
  · simp only [Option.some.injEq] at h
    subst h
    show (match jsToNumber ((input.getField "display_ms").coalesce
        ((input.getField "displayMs").coalesce ((input.getField "duration_ms").coalesce
          ((input.getField "durationMs").coalesce (.num 10000))))) with
      | some n => if n = 0 then (10000 : Int) else n
      | none => 10000) = claimDisplayMs input
    rw [coalesce_chain_eq_find]
    unfold claimDisplayMs displayField
    cases hf : [input.getField "display_ms", input.getField "displayMs",
        input.getField "duration_ms", input.getField "durationMs"].find? (fun v => !v.isNullish) with
    | none => decide
    | some v =>
      simp only [Option.getD_some]
      cases hjv : jsToNumber v with
      | none => simp [hjv]
      | some n => simp [hjv]

/-- **C7, witness.**  A concrete item with `display_ms: 0` parses with
`displayMs = 10000`. -/
theorem c7_displayMs_clamp_witness :
    normalizeItem (.obj [("id", .str "i1"), ("display_ms", .num 0)]) [] "item-r0" =
      some { id := "i1", mediaId := some "i1", type := "image", remoteUrl := none,
             displayMs := 10000, fit := "contain", muted := false, sha256 := none,
             transitionDurationMs := 0 } ∧
    ({ id := "i1", mediaId := some "i1", type := "image", remoteUrl := none,
       displayMs := 10000, fit := "contain", muted := false, sha256 := none,
       transitionDurationMs := 0 } : TimelineItem).displayMs = 10000 := by
  constructor
  · rfl
  · have h := c7_displayMs_clamp (.obj [("id", .str "i1"), ("display_ms", .num 0)]) [] "item-r0"
      { id := "i1", mediaId := some "i1", type := "image", remoteUrl := none,
        displayMs := 10000, fit := "contain", muted := false, sha256 := none,
        transitionDurationMs := 0 } (by rfl)
    exact h.trans (by rfl)

/-! ## Claim C1 — playlist mode precedence -/

def c1EmergencyItem : TimelineItem :=
  { id := "em1", mediaId := some "em1", type := "video", remoteUrl := some "https://u/e.mp4",
    displayMs := 10000, fit := "contain", muted := false, sha256 := none,
    transitionDurationMs := 0 }

def c1Snapshot : NormalizedSnapshot := { emergencyItem := some c1EmergencyItem, fetchedAt := "t1" }

/-- **C1, counterexample.**  The claim says that with an `emergencyItem`
present the playlist's items are exactly the single emergency item.  But
`buildPlaylist` hydrates the selection through the cache and drops
uncached items: with the emergency media absent from the cache the
playlist has `mode = emergency` and an *empty* item list. -/
theorem c1_buildPlaylist_counterexample :
    c1Snapshot.emergencyItem = some c1EmergencyItem ∧
    (buildPlaylist [] c1Snapshot .normal).mode = .emergency ∧
    (buildPlaylist [] c1Snapshot .normal).items = [] ∧
    (buildPlaylist [] c1Snapshot .normal).items ≠ [c1EmergencyItem] := by
  refine ⟨rfl, rfl, rfl, ?_⟩
  decide

/-- **C1, amended.**  The playlist mode follows the claim's strict
precedence (emergency, then non-empty items, then default, then the
supplied fallback mode), and the playlist's items are the cache-hydration
of exactly the claim's selection (the single emergency item / the
snapshot's items / the single default item / nothing): items whose media
is not in the cache are dropped, the others get `localPath`/`localUrl`
attached. -/
theorem c1_buildPlaylist_amended (cache : CacheView) (snap : NormalizedSnapshot)
    (fb : PlaybackMode) :
    (buildPlaylist cache snap fb).mode = claimMode snap fb ∧
    (buildPlaylist cache snap fb).items = attachLocalMedia cache (claimSelectedItems snap) := by
  unfold buildPlaylist claimMode claimSelectedItems
  cases he : snap.emergencyItem with
  | some e => simp
  | none =>
    cases hi : snap.items with
    | nil =>
      cases hd : snap.defaultItem with
      | some d => simp [hi]
      | none => simp [hi]
    | cons x xs =>
      simp [hi]

/-! ## Claim C2 — oversize cache adds -/

/-- **C2, counterexample.**  Adding a 150 MiB item to a 100 MiB cache:
the add succeeds (`.ok`), a download happens, the warning is the
"skipping eviction" one — and, against the claim, the cache entry for
`"m1"` *is* created. -/
theorem c2_oversizeAdd_counterexample :
    (addOp (100 * 1048576) {} "m1" (some "https://u/1.bin") none
        (.success (150 * 1048576) "h") 5).toOption.map
      (fun r => ((mapLookup r.1.entries "m1").isSome, r.2, r.1.warnings)) =
      some (true, true, ["Item exceeds cache capacity, skipping eviction"]) := rfl

/-- **C2, amended.**  For an add whose downloaded size exceeds `maxBytes`
(with `maxBytes > 0`): no eviction is attempted (the eviction step only
appends the warning and touches nothing else) and a warning is logged,
but the add is *not* skipped — the file is written and a cache entry for
the mediaId is registered, so the cache may exceed `maxBytes`. -/
theorem c2_oversizeAdd_amended (maxBytes : Nat) (st : CacheState) (mediaId : String)
    (url : Option String) (size : Nat) (hash : String) (now : Nat)
    (h1 : maxBytes < size) (h2 : 0 < maxBytes) :
    evictIfNeeded maxBytes st size =
      { st with warnings := st.warnings ++ ["Item exceeds cache capacity, skipping eviction"] } ∧
    addInternal maxBytes st mediaId url none (.success size hash) now =
      .ok { st with
        warnings := st.warnings ++ ["Item exceeds cache capacity, skipping eviction"]
        files := mapSet st.files (cacheFileName mediaId url) size
        entries := mapSet st.entries mediaId
          { mediaId := mediaId, sha256 := hash, size := size, lastUsedAt := now,
            localPath := cachePathOf (cacheFileName mediaId url) } } := by
  have he : evictIfNeeded maxBytes st size =
      { st with warnings := st.warnings ++ ["Item exceeds cache capacity, skipping eviction"] } := by
    unfold evictIfNeeded
    rw [if_pos ⟨h1, h2⟩]
  refine ⟨he, ?_⟩
  simp only [addInternal, downloadOp]
  rw [if_neg (by simp [optTruthy])]
  rw [he]
  rfl

/-- **C2, witness.**  The amended statement at the claim's own numbers:
100 MiB cache, 150 MiB item, empty starting state. -/
theorem c2_oversizeAdd_witness :
    addInternal (100 * 1048576) {} "m1" (some "https://u/1.bin") none
        (.success (150 * 1048576) "h") 5 =
      .ok { entries := [("m1", { mediaId := "m1", sha256 := "h", size := 157286400,
                                 lastUsedAt := 5, localPath := "media/m1.bin" })],
            files := [("m1.bin", 157286400)],
            warnings := ["Item exceeds cache capacity, skipping eviction"] } := by
  have h := (c2_oversizeAdd_amended (100 * 1048576) {} "m1" (some "https://u/1.bin")
    (150 * 1048576) "h" 5 (by decide) (by decide)).2
  exact h.trans (by rfl)

/-! ## Claim C9 — cache add idempotence at the public interface -/

def c9DiskOnly : CacheState := { files := [("m1.png", 42)] }

/-- **C9, counterexample.**  In a state where `has("m1")` is true only via
the directory scan (the file exists but the entry map is empty), a
subsequent `add` performs no download — but it does *not* leave the entry
map unchanged except for a `lastUsedAt` refresh: a new entry is
registered from disk stats. -/
theorem c9_addAfterHas_counterexample :
    (hasOp c9DiskOnly "m1" 7).1 = true ∧
    c9DiskOnly.entries = [] ∧
    addOp 1000 c9DiskOnly "m1" (some "https://u/1.png") none (.success 10 "h") 7 =
      .ok ({ entries := [("m1", { mediaId := "m1", sha256 := "", size := 42,
                                  lastUsedAt := 7, localPath := "media/m1.png" })],
             files := [("m1.png", 42)] }, false) ∧
    (addOp 1000 c9DiskOnly "m1" (some "https://u/1.png") none
        (.success 10 "h") 7).toOption.map (fun r => r.1.entries.map Prod.fst) =
      some ["m1"] := ⟨rfl, rfl, rfl, rfl⟩

/-- **C9, amended.**  Whenever `has(mediaId)` reports true, a subsequent
`add` performs no download and behaves exactly as that `has` call (the
single flag `false` records that no download happened); in particular,
when the entry is in the map with its file present, the entry map is
left unchanged except for refreshing that entry's `lastUsedAt`.  When
`has` is true only via the on-disk scan, `add` additionally re-registers
the map entry from disk stats (the counterexample), still without
downloading. -/
theorem c9_addAfterHas_amended (maxBytes : Nat) (st : CacheState) (mediaId : String)
    (url : Option String) (sha256 : Option String) (dl : DownloadResult) (now : Nat)
    (h : (hasOp st mediaId now).1 = true) :
    addOp maxBytes st mediaId url sha256 dl now = .ok ((hasOp st mediaId now).2, false) ∧
    (∀ e, mapLookup st.entries mediaId = some e → fileExists st e.localPath = true →
      (hasOp st mediaId now).2 =
        { st with entries := mapSet st.entries mediaId { e with lastUsedAt := now } }) := by
  have hp : hasOp st mediaId now = (true, (hasOp st mediaId now).2) := by
    rw [← h]
  constructor
  · unfold addOp
    rw [hp]
  · intro e he hf
    simp [hasOp, he, hf]

def c9MapEntry : CacheEntry :=
  { mediaId := "m1", sha256 := "h", size := 42, lastUsedAt := 1, localPath := "media/m1.png" }

def c9MapState : CacheState := { entries := [("m1", c9MapEntry)], files := [("m1.png", 42)] }

def c9MapEntryTouched : CacheEntry := { c9MapEntry with lastUsedAt := 9 }

/-- **C9, witness.**  The map-hit case at a concrete state: the add does
not download and only `lastUsedAt` moves from 1 to 9. -/
theorem c9_addAfterHas_witness :
    addOp 1000 c9MapState "m1" (some "https://u/1.png") none (.success 42 "h2") 9 =
      .ok ({ entries := [("m1", { mediaId := "m1", sha256 := "h", size := 42,
                                  lastUsedAt := 9, localPath := "media/m1.png" })],
             files := [("m1.png", 42)] }, false) ∧
    (hasOp c9MapState "m1" 9).2 =
      { c9MapState with entries := mapSet c9MapState.entries "m1" c9MapEntryTouched } := by
  have h := c9_addAfterHas_amended 1000 c9MapState "m1" (some "https://u/1.png") none
    (.success 42 "h2") 9 (by rfl)
  exact ⟨(h.1).trans (by rfl), (h.2 c9MapEntry rfl rfl).trans (by rfl)⟩

/-! ## Claim C4 — URL_EXPIRED refetches the snapshot exactly once -/

/-- **C4, confirmed.**  When the first refresh attempt ends in a
`URL_EXPIRED` cache error, `refreshSnapshot` recurses exactly once with
the retry flag cleared (fuel 0); whatever the second attempt does, the
cycle performs exactly two snapshot fetches, and a second `URL_EXPIRED`
in the same cycle triggers no further refetch but the offline/empty
fallback path. -/
theorem c4_urlExpired_single_refetch (env : RefreshEnv)
    (h0 : env.outcome 0 = .urlExpired) :
    refreshSnapshotOp env true = refreshAux env 1 0 ∧
    (refreshSnapshotOp env true).2 = 2 ∧
    (env.outcome 1 = .urlExpired →
      refreshSnapshotOp env true = (applyOfflineFallback env, 2)) := by
  have h1 : refreshSnapshotOp env true = refreshAux env 1 0 := by
    show refreshAux env 0 1 = refreshAux env 1 0
    conv_lhs => rw [refreshAux]
    rw [h0]
  have hsnd : (refreshAux env 1 0).2 = 2 := by
    conv_lhs => rw [refreshAux]
    cases ho : env.outcome 1 <;> simp
  refine ⟨h1, by rw [h1]; exact hsnd, ?_⟩
  intro hexp
  rw [h1]
  conv_lhs => rw [refreshAux]
  rw [hexp]

def c4Env : RefreshEnv :=
  { outcome := fun _ => .urlExpired, currentSnapshot := none, cache := [] }

/-- **C4, witness.**  An environment whose every attempt reports
`URL_EXPIRED`: the cycle fetches exactly twice and lands on the empty
fallback playlist. -/
theorem c4_urlExpired_single_refetch_witness :
    (refreshSnapshotOp c4Env true).2 = 2 ∧
    refreshSnapshotOp c4Env true = (applyOfflineFallback c4Env, 2) :=
  ⟨(c4_urlExpired_single_refetch c4Env rfl).2.1,
   (c4_urlExpired_single_refetch c4Env rfl).2.2 rfl⟩

/-! ## Claim C8 — when parseSnapshotResponse fails -/

/-- The `media` array is traversable without a TypeError: no nullish
elements (property reads on `null`/`undefined` throw). -/
def mediaEntriesOk (payload : JsVal) : Bool :=
  match payload.getField "media" with
  | .arr xs => xs.all (fun e => !e.isNullish)
  | _ => true

/-- `(itemsSource || []).map` does not throw: the source is an array or
falsy. -/
def itemsSourceOk (payload : JsVal) : Bool :=
  (itemsSourceOf payload).isArr || !(itemsSourceOf payload).truthy

/-- The raw url map extracted from an object payload (empty when the
extraction itself throws; that case is already excluded by
`mediaEntriesOk`). -/
def rawUrlMapOf (payload : JsVal) : List (String × JsVal) :=
  match extractMediaUrlMap payload with
  | .ok m => m
  | .error _ => []

/-- No processed item hits `inferTypeFromUrl`'s `url.toLowerCase()`
TypeError: no items-source element, no active emergency input, and no
truthy `default_media` input resolves a truthy non-string remote URL
while both its type fields are falsy. -/
def noTypeThrow (payload : JsVal) : Bool :=
  !((match itemsSourceList (itemsSourceOf payload) with
      | .ok xs => xs.any (fun x => normalizeItemThrows x (rawUrlMapOf payload))
      | .error _ => false) ||
    (emergencyActiveOf payload &&
      normalizeItemThrows (payload.getField "emergency") (rawUrlMapOf payload)) ||
    ((payload.getField "default_media").truthy &&
      normalizeItemThrows (payload.getField "default_media") (rawUrlMapOf payload)))

theorem mediaFold_ok (m : List (String × JsVal)) (xs : List JsVal) :
    exceptOk (mediaFold m xs) = xs.all (fun e => !e.isNullish) := by
  induction xs generalizing m with
  | nil => rfl
  | cons e rest ih =>
    by_cases he : e.isNullish
    · simp [mediaFold, he, exceptOk]
    · simp [mediaFold, he, ih]

theorem extractMediaUrlMap_ok (payload : JsVal) :
    exceptOk (extractMediaUrlMap payload) = mediaEntriesOk payload := by
  unfold extractMediaUrlMap mediaEntriesOk
  cases hm : payload.getField "media"
  case arr xs => exact mediaFold_ok _ xs
  all_goals rfl

theorem itemsSourceList_ok (v : JsVal) :
    exceptOk (itemsSourceList v) = (v.isArr || !v.truthy) := by
  cases v with
  | arr xs => rfl
  | bool b => cases b <;> rfl
  | num n =>
    by_cases hn : n = 0 <;>
      simp [itemsSourceList, exceptOk, JsVal.isArr, JsVal.truthy, hn]
  | str s =>
    by_cases hs : s = "" <;>
      simp [itemsSourceList, exceptOk, JsVal.isArr, JsVal.truthy, hs]
  | _ => rfl

/-- **C8, counterexample.**  Two non-null object payloads on which
`parseSnapshotResponse` throws: `{items: 1}` (truthy `1` has no `.map`)
and `{items: [{media_url: 7}]}` (the item has no explicit type, so
`inferTypeFromUrl(7)` runs `url.toLowerCase()` on a number).  Either
refutes "returns without throwing for every object payload, regardless
of the shapes of the schedule, items, media, or emergency fields". -/
theorem c8_parse_counterexample :
    (unwrapPayload (.obj [("items", .num 1)])).truthy = true ∧
    (unwrapPayload (.obj [("items", .num 1)])).isObjectLike = true ∧
    parseSnapshotResponse (.obj [("items", .num 1)]) "t0" =
      .error "TypeError: itemsSource.map is not a function" ∧
    (unwrapPayload (.obj [("items", .arr [.obj [("media_url", .num 7)]])])).truthy = true ∧
    (unwrapPayload (.obj [("items", .arr [.obj [("media_url", .num 7)]])])).isObjectLike = true ∧
    parseSnapshotResponse (.obj [("items", .arr [.obj [("media_url", .num 7)]])]) "t0" =
      .error "TypeError: url.toLowerCase is not a function" :=
  ⟨rfl, rfl, rfl, rfl, rfl, rfl⟩

/-- **C8, amended.**  `parseSnapshotResponse` returns normally iff the
(unwrapped) payload is a non-null object AND its `media` field, when an
array, has no nullish elements AND the effective items source
(`schedule.items` when an array, else `items`) is an array or falsy AND
no processed item (items-source element, active emergency input, truthy
`default_media` input) resolves a truthy non-string remote URL with
both type fields falsy.  It throws the `ParseError` exactly on
non-object payloads, and throws a TypeError on object payloads exactly
when one of the other three conditions fails (truthy non-array items
source, nullish `media[]` element, or `url.toLowerCase()` on a
non-string URL inside `inferTypeFromUrl`). -/
theorem c8_parse_ok_iff (raw : JsVal) (nowIso : String) :
    exceptOk (parseSnapshotResponse raw nowIso) =
      ((unwrapPayload raw).truthy && (unwrapPayload raw).isObjectLike &&
        mediaEntriesOk (unwrapPayload raw) && itemsSourceOk (unwrapPayload raw) &&
        noTypeThrow (unwrapPayload raw)) := by
  unfold parseSnapshotResponse
  by_cases hobj : (unwrapPayload raw).truthy ∧ (unwrapPayload raw).isObjectLike
  · rw [if_neg (not_not_intro hobj)]
    cases hE : extractMediaUrlMap (unwrapPayload raw) with
    | error e =>
      have hm : mediaEntriesOk (unwrapPayload raw) = false := by
        rw [← extractMediaUrlMap_ok, hE]; rfl
      simp [exceptOk, hm]
    | ok rawMap =>
      have hm : mediaEntriesOk (unwrapPayload raw) = true := by
        rw [← extractMediaUrlMap_ok, hE]; rfl
      have hmap : rawUrlMapOf (unwrapPayload raw) = rawMap := by
        unfold rawUrlMapOf; rw [hE]
      cases hI : itemsSourceList (itemsSourceOf (unwrapPayload raw)) with
      | error e =>
        have hs : itemsSourceOk (unwrapPayload raw) = false := by
          unfold itemsSourceOk
          rw [← itemsSourceList_ok, hI]; rfl
        simp only [hI]
        simp [exceptOk, hm, hs, hobj.1, hobj.2]
      | ok xs =>
        have hs : itemsSourceOk (unwrapPayload raw) = true := by
          unfold itemsSourceOk
          rw [← itemsSourceList_ok, hI]; rfl
        have hnt : noTypeThrow (unwrapPayload raw) =
            !((xs.any fun x => normalizeItemThrows x rawMap) ||
              (emergencyActiveOf (unwrapPayload raw) &&
                normalizeItemThrows ((unwrapPayload raw).getField "emergency") rawMap) ||
              ((unwrapPayload raw).getField "default_media").truthy &&
                normalizeItemThrows ((unwrapPayload raw).getField "default_media") rawMap) := by
          unfold noTypeThrow
          rw [hmap, hI]
        simp only [hI]
        by_cases hA : (xs.any fun x => normalizeItemThrows x rawMap) = true
        · rw [if_pos hA]
          simp [exceptOk, hm, hs, hobj.1, hobj.2, hnt, hA]
        · rw [if_neg hA]
          rw [Bool.not_eq_true] at hA
          by_cases hB : (emergencyActiveOf (unwrapPayload raw) &&
              normalizeItemThrows ((unwrapPayload raw).getField "emergency") rawMap) = true
          · rw [if_pos hB]
            simp [exceptOk, hm, hs, hobj.1, hobj.2, hnt, hA, hB]
          · rw [if_neg hB]
            rw [Bool.not_eq_true] at hB
            by_cases hC : (((unwrapPayload raw).getField "default_media").truthy &&
                normalizeItemThrows ((unwrapPayload raw).getField "default_media") rawMap) = true
            · rw [if_pos hC]
              simp [exceptOk, hm, hs, hobj.1, hobj.2, hnt, hA, hB, hC]
            · rw [if_neg hC]
              rw [Bool.not_eq_true] at hC
              simp [exceptOk, hm, hs, hobj.1, hobj.2, hnt, hA, hB, hC]
  · rw [if_pos hobj]
    have hfalse : ((unwrapPayload raw).truthy && (unwrapPayload raw).isObjectLike) = false := by
      cases ht : (unwrapPayload raw).truthy with
      | false => simp
      | true =>
        cases hi : (unwrapPayload raw).isObjectLike with
        | false => simp
        | true => exact absurd ⟨ht, hi⟩ hobj
    simp [exceptOk, hfalse]

/-! ## Claim C3 — the playback error budget -/

theorem engineRun_errorCount (es : List EngineEvent) : ∀ s : EngineState,
    (engineRun s es).1.errorCount = s.errorCount + countErrEvents es := by
  induction es with
  | nil => intro s; simp [engineRun, countErrEvents]
  | cons e rest ih =>
    intro s
    cases e with
    | playOk =>
      simp only [engineRun, engineStep]
      rw [ih]
      simp [countErrEvents, isErrEvent]
    | errEvent m =>
      simp only [engineRun, engineStep, handleError, maxErrors]
      by_cases hb : s.errorCount + 1 ≥ 5
      · rw [if_pos hb, ih]
        simp [countErrEvents, isErrEvent]
        omega
      · rw [if_neg hb, ih]
        simp [countErrEvents, isErrEvent]
        omega

theorem engineRun_state (es : List EngineEvent) : ∀ s : EngineState,
    (engineRun s es).1.state =
      (if countErrEvents es = 0 then s.state
       else if 5 ≤ s.errorCount + countErrEvents es then PState.error else s.state) := by
  induction es with
  | nil => intro s; simp [engineRun, countErrEvents]
  | cons e rest ih =>
    intro s
    have hcnt : ∀ m, countErrEvents (EngineEvent.errEvent m :: rest) = countErrEvents rest + 1 := by
      intro m; simp [countErrEvents, isErrEvent]
    cases e with
    | playOk =>
      simp only [engineRun, engineStep]
      rw [ih]
      simp [countErrEvents, isErrEvent]
    | errEvent m =>
      simp only [engineRun, engineStep, handleError, maxErrors]
      by_cases hb : s.errorCount + 1 ≥ 5
      · rw [if_pos hb]
        dsimp only
        rw [ih]
        dsimp only
        rw [hcnt m]
        rw [if_neg (show ¬ (countErrEvents rest + 1 = 0) by omega)]
        rw [if_pos (show 5 ≤ s.errorCount + (countErrEvents rest + 1) by omega)]
        split
        · rfl
        · split <;> rfl
      · rw [if_neg hb]
        dsimp only
        rw [ih]
        dsimp only
        rw [hcnt m]
        rw [if_neg (show ¬ (countErrEvents rest + 1 = 0) by omega)]
        by_cases hk : countErrEvents rest = 0
        · rw [if_pos hk, if_neg (show ¬ 5 ≤ s.errorCount + (countErrEvents rest + 1) by omega)]
        · rw [if_neg hk]
          by_cases h5 : 5 ≤ s.errorCount + 1 + countErrEvents rest
          · rw [if_pos h5, if_pos (show 5 ≤ s.errorCount + (countErrEvents rest + 1) by omega)]
          · rw [if_neg h5, if_neg (show ¬ 5 ≤ s.errorCount + (countErrEvents rest + 1) by omega)]

theorem engineRun_fallback_len (es : List EngineEvent) : ∀ s : EngineState,
    ((engineRun s es).2.filter isFallbackMsg).length =
      min (s.errorCount + countErrEvents es) 4 - min s.errorCount 4 := by
  induction es with
  | nil => intro s; simp [engineRun, countErrEvents]
  | cons e rest ih =>
    intro s
    cases e with
    | playOk =>
      simp only [engineRun, engineStep]
      simp [ih, countErrEvents, isErrEvent, isFallbackMsg]
    | errEvent m =>
      simp only [engineRun, engineStep, handleError, maxErrors]
      by_cases hb : s.errorCount + 1 ≥ 5
      · rw [if_pos hb]
        simp [ih, countErrEvents, isErrEvent, isFallbackMsg]
        omega
      · rw [if_neg hb]
        simp [ih, countErrEvents, isErrEvent, isFallbackMsg]
        omega

theorem engineRun_playbackError_len (es : List EngineEvent) : ∀ s : EngineState,
    ((engineRun s es).2.filter isPlaybackErrorMsg).length =
      (s.errorCount + countErrEvents es - 4) - (s.errorCount - 4) := by
  induction es with
  | nil => intro s; simp [engineRun, countErrEvents]
  | cons e rest ih =>
    intro s
    cases e with
    | playOk =>
      simp only [engineRun, engineStep]
      simp [ih, countErrEvents, isErrEvent, isPlaybackErrorMsg]
    | errEvent m =>
      simp only [engineRun, engineStep, handleError, maxErrors]
      by_cases hb : s.errorCount + 1 ≥ 5
      · rw [if_pos hb]
        simp [ih, countErrEvents, isErrEvent, isPlaybackErrorMsg]
        omega
      · rw [if_neg hb]
        simp [ih, countErrEvents, isErrEvent, isPlaybackErrorMsg]
        omega

/-- **C3, counterexample.**  The claim says the error counter resets on a
successful play-item, so `[error, playOk, error, error, error, error]`
has only 4 consecutive errors and playback should continue.  On the code
the counter never resets: the run ends stopped in state `error` with
`PlaybackError("Max errors reached")` emitted. -/
theorem c3_errorBudget_counterexample :
    claimResetCounter 0 [.errEvent "e1", .playOk, .errEvent "e2", .errEvent "e3",
      .errEvent "e4", .errEvent "e5"] = 4 ∧
    (engineRun engineInit [.errEvent "e1", .playOk, .errEvent "e2", .errEvent "e3",
      .errEvent "e4", .errEvent "e5"]).1.state = .error ∧
    (engineRun engineInit [.errEvent "e1", .playOk, .errEvent "e2", .errEvent "e3",
      .errEvent "e4", .errEvent "e5"]).2.contains (.playbackError "Max errors reached") = true :=
  ⟨rfl, rfl, rfl⟩

/-- **C3, amended.**  Each playback error increments the error counter,
which *never resets* (successful play-items leave it unchanged): after
any event sequence the counter equals the total number of errors.  While
the incremented counter is below 5 each error sends one `show-fallback`
message and playback continues; every error bringing the cumulative
count to 5 or beyond stops playback (state `error`) and surfaces
`PlaybackError("Max errors reached")` — so 5 cumulative, not
necessarily consecutive, errors stop the engine. -/
theorem c3_errorBudget_amended (es : List EngineEvent) :
    (engineRun engineInit es).1.errorCount = countErrEvents es ∧
    (engineRun engineInit es).1.state =
      (if 5 ≤ countErrEvents es then PState.error else PState.playing) ∧
    ((engineRun engineInit es).2.filter isFallbackMsg).length = min (countErrEvents es) 4 ∧
    ((engineRun engineInit es).2.filter isPlaybackErrorMsg).length = countErrEvents es - 4 := by
  refine ⟨?_, ?_, ?_, ?_⟩
  · simpa [engineInit] using engineRun_errorCount es engineInit
  · rw [engineRun_state es engineInit]
    by_cases hk : countErrEvents es = 0
    · simp [hk, engineInit]
    · simp only [engineInit, if_neg hk, Nat.zero_add]
  · simpa [engineInit] using engineRun_fallback_len es engineInit
  · simpa [engineInit] using engineRun_playbackError_len es engineInit

/-! ## Claim C5 — command rate limiting -/

theorem runCommands_rateLimited_ack (cs : List Command) : ∀ (m : List (String × Nat)),
    ∀ o ∈ (runCommands m cs).2, o.dispatched = false →
      o.ack = { success := false, error := some "Rate limited" } := by
  induction cs with
  | nil => intro m o ho; simp [runCommands] at ho
  | cons c rest ih =>
    intro m o ho hd
    simp only [runCommands] at ho
    unfold processCommand at ho
    by_cases hrl : isRateLimited m c.ctype c.arrive
    · rw [if_pos hrl] at ho
      dsimp only at ho
      rcases List.mem_cons.mp ho with rfl | ho'
      · rfl
      · exact ih m o ho' hd
    · rw [if_neg hrl] at ho
      dsimp only at ho
      rcases List.mem_cons.mp ho with rfl | ho'
      · exact absurd hd (by simp)
      · exact ih _ o ho' hd

/-- The inductive separation invariant: dispatched outcomes of the same
type are at least one window apart, and every dispatched outcome is at
least one window after whatever completion time the starting map already
holds for its type. -/
theorem runCommands_sep (cs : List Command) : ∀ (m : List (String × Nat)),
    (∀ c ∈ cs, c.arrive ≤ c.complete) →
    (((runCommands m cs).2.filter (fun o => o.dispatched)).Pairwise
      (fun a b => a.ctype = b.ctype → a.arrive + 60000 ≤ b.arrive)) ∧
    (∀ o ∈ (runCommands m cs).2.filter (fun o => o.dispatched),
      ∀ v, mapLookup m o.ctype = some v → v + 60000 ≤ o.arrive) := by
  induction cs with
  | nil => intro m _; simp [runCommands]
  | cons c rest ih =>
    intro m hwf
    have hwfc : c.arrive ≤ c.complete := hwf c (List.mem_cons_self c rest)
    have hwfr : ∀ x ∈ rest, x.arrive ≤ x.complete := fun x hx => hwf x (List.mem_cons_of_mem _ hx)
    simp only [runCommands]
    unfold processCommand
    by_cases hrl : isRateLimited m c.ctype c.arrive
    · rw [if_pos hrl]
      dsimp only
      obtain ⟨ihP, ihL⟩ := ih m hwfr
      rw [List.filter_cons]
      constructor
      · simpa using ihP
      · intro o ho v hv
        refine ihL o ?_ v hv
        simpa using ho
    · rw [if_neg hrl]
      dsimp only
      obtain ⟨ihP, ihL⟩ := ih (mapSet m c.ctype c.complete) hwfr
      have hnotrl : ∀ v, mapLookup m c.ctype = some v → v + 60000 ≤ c.arrive := by
        intro v hv
        unfold isRateLimited at hrl
        rw [hv] at hrl
        simp only [decide_eq_true_eq, rateLimitWindowMs] at hrl
        omega
      rw [List.filter_cons]
      simp only [decide_eq_true_eq, if_pos rfl]
      constructor
      · refine List.Pairwise.cons ?_ ihP
        intro b hb hty
        dsimp only at hty
        have hlook : mapLookup (mapSet m c.ctype c.complete) b.ctype = some c.complete := by
          rw [mapLookup_mapSet, if_pos hty.symm]
        have h2 := ihL b hb c.complete hlook
        dsimp only
        omega
      · intro o ho v hv
        rcases List.mem_cons.mp ho with rfl | ho'
        · dsimp only at hv ⊢
          exact hnotrl v hv
        · by_cases hoc : o.ctype = c.ctype
          · have h2 := ihL o ho' c.complete (by rw [mapLookup_mapSet, if_pos hoc])
            have h3 := hnotrl v (by rw [← hoc]; exact hv)
            omega
          · exact ihL o ho' v (by rw [mapLookup_mapSet, if_neg hoc]; exact hv)

/-- **C5, confirmed.**  Over any sequentially processed command trace in
which each command's completion clock reading is at least its arrival
reading, any two dispatched commands of the same type are at least 60
seconds apart (arrival to arrival), and every command that is not
dispatched is acknowledged with `{success: false, error: "Rate
limited"}` (a command arriving within 60 s of the stored execution time
of its type takes exactly that branch). -/
theorem c5_rateLimit_separation (cs : List Command)
    (hwf : ∀ c ∈ cs, c.arrive ≤ c.complete) :
    (((runCommands [] cs).2.filter (fun o => o.dispatched)).Pairwise
      (fun a b => a.ctype = b.ctype → a.arrive + 60000 ≤ b.arrive)) ∧
    (∀ o ∈ (runCommands [] cs).2, o.dispatched = false →
      o.ack = { success := false, error := some "Rate limited" }) :=
  ⟨(runCommands_sep cs [] hwf).1, runCommands_rateLimited_ack cs []⟩

def c5Trace : List Command :=
  [{ id := "c1", ctype := "SCREENSHOT", arrive := 0, complete := 1000,
     execAck := { success := true } },
   { id := "c2", ctype := "SCREENSHOT", arrive := 10000, complete := 10500,
     execAck := { success := true } }]

/-- **C5, witness.**  Two SCREENSHOT commands 10 s apart: the first is
dispatched, the second is rejected with the "Rate limited" ack. -/
theorem c5_rateLimit_separation_witness :
    ((runCommands [] c5Trace).2.getD 1 default).ack =
      { success := false, error := some "Rate limited" } ∧
    (runCommands [] c5Trace).2 =
      [{ ctype := "SCREENSHOT", arrive := 0, dispatched := true, ack := { success := true } },
       { ctype := "SCREENSHOT", arrive := 10000, dispatched := false,
         ack := { success := false, error := some "Rate limited" } }] :=
  ⟨(c5_rateLimit_separation c5Trace (by decide)).2 _ (by decide) (by rfl), rfl⟩

end Signage
